import Mathlib

/-!
Verification of the webhook-proxy forwarding engine and configuration
loader against their natural-language specification.

The Go sources are shallowly embedded: durations (time.Duration, int64
nanoseconds) become Int, byte slices become List Nat, Go maps become
association lists, and the network is an explicit environment function
mapping each attempt number to its result.
-/

/-- One second, as a time.Duration value (nanoseconds). -/
def oneSecond : Int := 1000000000

/-- Embeds config.DestinationConfig (config/config.go lines 50-58):
url, method, headers, timeout, retries, retry_delay. -/
structure DestinationConfig where
  url : String
  method : String
  headers : List (String × String)
  timeout : Int
  retries : Int
  retryDelay : Int
deriving DecidableEq

/-- Result of one client.Do call in the delivery loop of
proxy/proxy.go: either a transport error or an HTTP response with a
status code. -/
inductive SendOutcome where
  | err (msg : String)
  | resp (status : Int)
deriving DecidableEq

/-- Observable result of one run of a per-destination delivery loop:
how many delivery attempts were sent, the sequence of sleeps performed
between attempts, and whether the loop returned through its success
branch. -/
structure LoopResult where
  attempts : Nat
  waits : List Int
  success : Bool
deriving DecidableEq

/-- Embeds the retry-delay substitution of proxy/proxy.go (lines 91-94
and 117-120): retryDelay := dest.RetryDelay; if retryDelay <= 0 then
one second is used instead. -/
def retryWait (retryDelay : Int) : Int :=
  if retryDelay ≤ 0 then oneSecond else retryDelay

/-- Embeds the maxAttempts computation of forwardToDestination in
proxy/proxy.go (lines 51-54): maxAttempts := dest.Retries; if
maxAttempts <= 0 then maxAttempts = 1. -/
def effectiveMaxAttempts (retries : Int) : Nat :=
  if retries ≤ 0 then 1 else retries.toNat

/-- Embeds the attempt loop of forwardToDestination in proxy/proxy.go
(lines 59-123).  The first Nat argument is the current attempt number,
the second the number of loop iterations still to run including the
current one (rem = maxAttempts + 1 - attempt); newReqOk records whether
http.NewRequest succeeds (it is deterministic in dest and body, and the
source returns at once when it fails, before any send); send gives the
result of client.Do for each attempt number.  A 2xx status returns
through the success branch; otherwise, when iterations remain, the loop
sleeps retryWait and continues. -/
def forwardLoop (dest : DestinationConfig) (newReqOk : Bool)
    (send : Nat → SendOutcome) : Nat → Nat → LoopResult
  | _, 0 => { attempts := 0, waits := [], success := false }
  | attempt, rem + 1 =>
    if newReqOk = false then { attempts := 0, waits := [], success := false }
    else
      match send attempt with
      | SendOutcome.err _ =>
        if 0 < rem then
          let rest := forwardLoop dest newReqOk send (attempt + 1) rem
          { attempts := rest.attempts + 1,
            waits := retryWait dest.retryDelay :: rest.waits,
            success := rest.success }
        else { attempts := 1, waits := [], success := false }
      | SendOutcome.resp s =>
        if 200 ≤ s ∧ s < 300 then { attempts := 1, waits := [], success := true }
        else if 0 < rem then
          let rest := forwardLoop dest newReqOk send (attempt + 1) rem
          { attempts := rest.attempts + 1,
            waits := retryWait dest.retryDelay :: rest.waits,
            success := rest.success }
        else { attempts := 1, waits := [], success := false }

/-- Embeds forwardToDestination of proxy/proxy.go: run the attempt loop
from attempt 1 with maxAttempts iterations remaining. -/
def forwardToDestination (dest : DestinationConfig) (newReqOk : Bool)
    (send : Nat → SendOutcome) : LoopResult :=
  forwardLoop dest newReqOk send 1 (effectiveMaxAttempts dest.retries)

/-- What the environment yields for one delivery attempt of the
current forwardToDestination (internal/proxy/proxy.go, staged as the
third document of src/.golangci.yml, lines 479-556): request creation
may fail, the transport may fail, reading the received response body
may fail after a status code was received, or a response arrives with
its body read in full. -/
inductive AttemptEnv where
  | createError (msg : String)
  | transportError (msg : String)
  | readBodyError (status : Int) (msg : String)
  | response (status : Int) (respBody : List Nat)
deriving DecidableEq

/-- The value sendRequest of internal/proxy/proxy.go (third staged
document of src/.golangci.yml, lines 559-619) returns to the delivery
loop: status code, response body (none embeds a nil byte slice) and
optional error; the duration is elided. -/
structure SendResult where
  statusCode : Int
  respBody : Option (List Nat)
  error : Option String
deriving DecidableEq

/-- Embeds sendRequest of internal/proxy/proxy.go (third staged
document of src/.golangci.yml, lines 559-619): a request-creation
failure and a transport failure return status 0, a nil body and an
error; a body-read failure keeps the received status code but returns
a nil body and an error; only a fully read response returns the body,
with no error. -/
def sendRequest (env : AttemptEnv) : SendResult :=
  match env with
  | AttemptEnv.createError msg =>
    { statusCode := 0, respBody := none
      error := some ("failed to create request: " ++ msg) }
  | AttemptEnv.transportError msg =>
    { statusCode := 0, respBody := none
      error := some ("request failed: " ++ msg) }
  | AttemptEnv.readBodyError s msg =>
    { statusCode := s, respBody := none
      error := some ("failed to read response body: " ++ msg) }
  | AttemptEnv.response s b =>
    { statusCode := s, respBody := some b, error := none }

/-- An attempt outcome the current delivery loop takes its success
branch on (internal/proxy/proxy.go lines 499-511): sendRequest
returned no error and the status code is 2xx.  A 2xx status with a
failed body read carries an error and is a failure. -/
def sendSuccess (r : SendResult) : Bool :=
  r.error.isNone && decide (200 ≤ r.statusCode ∧ r.statusCode < 300)

/-- Embeds the maxAttempts computation of the current
forwardToDestination (internal/proxy/proxy.go, third staged document
of src/.golangci.yml, lines 488-492): maxAttempts := dest.Retries + 1;
if maxAttempts <= 0 then maxAttempts = 1. -/
def maxAttemptsCur (retries : Int) : Nat :=
  if retries + 1 ≤ 0 then 1 else (retries + 1).toNat

/-- Embeds the attempt loop of the current forwardToDestination
(internal/proxy/proxy.go, third staged document of src/.golangci.yml,
lines 494-545), with arguments as in forwardLoop: current attempt
number, then remaining iterations including the current one.  Each
iteration calls sendRequest once; on an error outcome the loop
consults shouldRetry, which sleeps retryWait and continues while
attempt < maxAttempts and otherwise returns; with no error a 2xx
status returns through the success branch and any other status is a
failure handled like an error outcome. -/
def forwardLoopCur (dest : DestinationConfig) (env : Nat → AttemptEnv) :
    Nat → Nat → LoopResult
  | _, 0 => { attempts := 0, waits := [], success := false }
  | attempt, rem + 1 =>
    match (sendRequest (env attempt)).error with
    | some _ =>
      if 0 < rem then
        let rest := forwardLoopCur dest env (attempt + 1) rem
        { attempts := rest.attempts + 1,
          waits := retryWait dest.retryDelay :: rest.waits,
          success := rest.success }
      else { attempts := 1, waits := [], success := false }
    | none =>
      if 200 ≤ (sendRequest (env attempt)).statusCode ∧
          (sendRequest (env attempt)).statusCode < 300 then
        { attempts := 1, waits := [], success := true }
      else if 0 < rem then
        let rest := forwardLoopCur dest env (attempt + 1) rem
        { attempts := rest.attempts + 1,
          waits := retryWait dest.retryDelay :: rest.waits,
          success := rest.success }
      else { attempts := 1, waits := [], success := false }

/-- Embeds one full run of the current forwardToDestination
(internal/proxy/proxy.go, third staged document of src/.golangci.yml):
the attempt loop from attempt 1 with maxAttemptsCur iterations. -/
def forwardToDestinationCur (dest : DestinationConfig)
    (env : Nat → AttemptEnv) : LoopResult :=
  forwardLoopCur dest env 1 (maxAttemptsCur dest.retries)

/-- Lookup in an association-list header map: the value of the first
entry carrying the given key. -/
def hfind : List (String × String) → String → Option String
  | [], _ => none
  | p :: rest, k => if p.1 = k then some p.2 else hfind rest k

/-- Embeds req.Header.Set(k, v) of net/http, which assigns the single
value v to the key k: replace the entry for k when one is present,
append one otherwise. -/
def headerSet : List (String × String) → String → String → List (String × String)
  | [], k, v => [(k, v)]
  | p :: rest, k, v =>
    if p.1 = k then (k, v) :: rest else p :: headerSet rest k v

/-- Embeds one range-and-Set loop of forwardToDestination
(proxy/proxy.go lines 71-79): every pair of the map m is Set into h.
Go map iteration order is arbitrary, but map keys are unique, so the
lookups of the result do not depend on the order the association list
fixes. -/
def setAll (h : List (String × String)) (m : List (String × String)) :
    List (String × String) :=
  m.foldl (fun acc p => headerSet acc p.1 p.2) h

/-- The outgoing HTTP request constructed by forwardToDestination
(proxy/proxy.go lines 60-79): method and URL taken from the
destination, headers built by Set of the forwarded request headers
first and of the destination headers second, body the received
payload. -/
structure RequestModel where
  method : String
  url : String
  headers : List (String × String)
  body : List Nat
deriving DecidableEq

/-- Embeds the request construction of forwardToDestination in
proxy/proxy.go: http.NewRequest(dest.Method, dest.URL, body) followed
by the two Header.Set loops. -/
def buildRequest (dest : DestinationConfig) (body : List Nat)
    (reqHeaders : List (String × String)) : RequestModel :=
  { method := dest.method
    url := dest.url
    headers := setAll (setAll [] reqHeaders) dest.headers
    body := body }

/-- Unique keys: the invariant a Go map enjoys when rendered as an
association list. -/
abbrev uniqueKeys (l : List (String × String)) : Prop :=
  (l.map Prod.fst).Nodup

/-- Embeds config.ServerConfig (config/config.go lines 30-33). -/
structure ServerConfig where
  port : Int
  host : String
deriving DecidableEq

/-- Embeds config.LoggingConfig (config/config.go lines 35-41). -/
structure LoggingConfig where
  level : String
  format : String
  output : String
  filePath : String
deriving DecidableEq

/-- Embeds config.EndpointConfig (config/config.go lines 43-47). -/
structure EndpointConfig where
  path : String
  destinations : List DestinationConfig
deriving DecidableEq

/-- Embeds config.Config (config/config.go lines 23-28). -/
structure Config where
  server : ServerConfig
  logging : LoggingConfig
  endpoints : List EndpointConfig
deriving DecidableEq

/-- Embeds the per-destination part of setDefaultValues in
config/config.go (lines 111-137): empty method becomes POST, zero
timeout becomes 5 seconds, negative retries become 0, and a zero
retry_delay becomes 1 second unconditionally.  The four conditions
each read only the field their branch assigns, so the sequential
assignments of the source equal this simultaneous record. -/
def setDefaultValuesDest (d : DestinationConfig) : DestinationConfig :=
  { url := d.url
    method := if d.method = "" then "POST" else d.method
    headers := d.headers
    timeout := if d.timeout = 0 then 5 * oneSecond else d.timeout
    retries := if d.retries < 0 then 0 else d.retries
    retryDelay := if d.retryDelay = 0 then oneSecond else d.retryDelay }

/-- Embeds the per-destination part of setDefaultValues in the later
config revision (src/unnamed/part_008 lines 244-274): as
setDefaultValuesDest, except that the zero retry_delay is defaulted to
1 second only when the (already clamped) retries value is positive,
and a nil headers map is initialized, which on the association-list
model is the identity. -/
def setDefaultValuesDestLater (d : DestinationConfig) : DestinationConfig :=
  { url := d.url
    method := if d.method = "" then "POST" else d.method
    headers := d.headers
    timeout := if d.timeout = 0 then 5 * oneSecond else d.timeout
    retries := if d.retries < 0 then 0 else d.retries
    retryDelay :=
      if d.retryDelay = 0 ∧ 0 < (if d.retries < 0 then 0 else d.retries) then
        oneSecond
      else d.retryDelay }

/-- Embeds setDefaultValues of config/config.go (lines 90-137): server
and logging defaults, then the destination defaults applied to every
destination of every endpoint. -/
def setDefaultValues (c : Config) : Config :=
  { server :=
      { port := if c.server.port = 0 then 8080 else c.server.port
        host := if c.server.host = "" then "0.0.0.0" else c.server.host }
    logging :=
      { level := if c.logging.level = "" then "info" else c.logging.level
        format := if c.logging.format = "" then "json" else c.logging.format
        output := if c.logging.output = "" then "stdout" else c.logging.output
        filePath := c.logging.filePath }
    endpoints := c.endpoints.map fun ep =>
      { path := ep.path
        destinations := ep.destinations.map setDefaultValuesDest } }

/-- Embeds applyEnvironmentOverrides of config/config.go (lines
139-167), with the process environment as the function env and
strconv.Atoi as the function atoi: server and logging fields may be
replaced, endpoints are never touched. -/
def applyEnvironmentOverrides (env : String → Option String)
    (atoi : String → Option Int) (c : Config) : Config :=
  { server :=
      { port :=
          match env "WEBHOOK_PROXY_SERVER_PORT" with
          | some s =>
            match atoi s with
            | some p => p
            | none => c.server.port
          | none => c.server.port
        host :=
          match env "WEBHOOK_PROXY_SERVER_HOST" with
          | some h => h
          | none => c.server.host }
    logging :=
      { level :=
          match env "WEBHOOK_PROXY_LOG_LEVEL" with
          | some v => v
          | none => c.logging.level
        format :=
          match env "WEBHOOK_PROXY_LOG_FORMAT" with
          | some v => v
          | none => c.logging.format
        output :=
          match env "WEBHOOK_PROXY_LOG_OUTPUT" with
          | some v => v
          | none => c.logging.output
        filePath :=
          match env "WEBHOOK_PROXY_LOG_FILE_PATH" with
          | some v => v
          | none => c.logging.filePath }
    endpoints := c.endpoints }

/-- Embeds strings.ToUpper as used on configured HTTP methods (ASCII
uppercase, character by character). -/
def toUpperAscii (s : String) : String :=
  String.mk (s.data.map fun c =>
    if 97 ≤ c.toNat ∧ c.toNat ≤ 122 then Char.ofNat (c.toNat - 32) else c)

/-- Embeds strings.HasPrefix: the first string starts with the
second. -/
def hasPrefixStr (s pre : String) : Bool := pre.data.isPrefixOf s.data

/-- The HTTP method allow-list of validateDestinationConfig
(config/config.go lines 266-270). -/
def validMethods : List String :=
  ["GET", "POST", "PUT", "DELETE", "PATCH", "HEAD", "OPTIONS"]

/-- Embeds validateServerConfig of config/config.go (lines 197-202). -/
def validateServerConfig (s : ServerConfig) : Except String Unit :=
  if s.port < 0 ∨ 65535 < s.port then Except.error "invalid server port"
  else Except.ok ()

/-- Embeds validateLoggingConfig of config/config.go (lines 204-226);
error messages carry no index. -/
def validateLoggingConfig (l : LoggingConfig) : Except String Unit :=
  if ¬ ["debug", "info", "warn", "error"].contains l.level then
    Except.error "invalid logging level"
  else if ¬ ["json", "text"].contains l.format then
    Except.error "invalid logging format"
  else if ¬ ["stdout", "file"].contains l.output then
    Except.error "invalid logging output"
  else if l.output = "file" ∧ l.filePath = "" then
    Except.error "file_path is required when output is file"
  else Except.ok ()

/-- Embeds validateDestinationConfig of config/config.go (lines
252-288), with url.ParseRequestURI success as the function urlOk;
error messages carry no index. -/
def validateDestinationConfig (urlOk : String → Bool)
    (d : DestinationConfig) : Except String Unit :=
  if d.url = "" then Except.error "url is required"
  else if ¬ urlOk d.url then Except.error "invalid url"
  else if ¬ validMethods.contains (toUpperAscii d.method) then
    Except.error "invalid method"
  else if d.timeout < 0 then Except.error "timeout cannot be negative"
  else if d.retries < 0 then Except.error "retries cannot be negative"
  else if d.retryDelay < 0 then Except.error "retry_delay cannot be negative"
  else Except.ok ()

/-- The destination loop of validateEndpointConfig (config/config.go
lines 242-246): first error wins. -/
def validateDestList (urlOk : String → Bool) :
    List DestinationConfig → Except String Unit
  | [] => Except.ok ()
  | d :: ds =>
    match validateDestinationConfig urlOk d with
    | Except.ok _ => validateDestList urlOk ds
    | Except.error e => Except.error e

/-- Embeds validateEndpointConfig of config/config.go (lines
228-249). -/
def validateEndpointConfig (urlOk : String → Bool)
    (ep : EndpointConfig) : Except String Unit :=
  if ep.path = "" then Except.error "path is required"
  else if ¬ hasPrefixStr ep.path "/" then Except.error "path must start with /"
  else if ep.destinations.isEmpty then
    Except.error "at least one destination is required"
  else validateDestList urlOk ep.destinations

/-- The endpoint loop of validateConfig (config/config.go lines
188-192): first error wins. -/
def validateEndpointList (urlOk : String → Bool) :
    List EndpointConfig → Except String Unit
  | [] => Except.ok ()
  | ep :: eps =>
    match validateEndpointConfig urlOk ep with
    | Except.ok _ => validateEndpointList urlOk eps
    | Except.error e => Except.error e

/-- Embeds validateConfig of config/config.go (lines 170-195). -/
def validateConfig (urlOk : String → Bool) (c : Config) :
    Except String Unit :=
  match validateServerConfig c.server with
  | Except.error e => Except.error e
  | Except.ok _ =>
    match validateLoggingConfig c.logging with
    | Except.error e => Except.error e
    | Except.ok _ =>
      if c.endpoints.isEmpty then
        Except.error "at least one endpoint is required"
      else validateEndpointList urlOk c.endpoints

/-- Embeds LoadConfig of config/config.go (lines 60-88) from the
already parsed YAML value on: set defaults, apply environment
overrides, validate, and return the processed configuration on
success. -/
def loadConfig (urlOk : String → Bool) (env : String → Option String)
    (atoi : String → Option Int) (parsed : Config) : Except String Config :=
  match validateConfig urlOk
      (applyEnvironmentOverrides env atoi (setDefaultValues parsed)) with
  | Except.ok _ =>
    Except.ok (applyEnvironmentOverrides env atoi (setDefaultValues parsed))
  | Except.error e => Except.error e

/-- Outcome of readRequestBody in internal/server/server.go. -/
inductive ReadResult where
  | ok (body : List Nat)
  | err (msg : String)
deriving DecidableEq

/-- Embeds the header flattening of the webhook handler
(internal/server/server.go lines 186-191): each key keeps its first
value, keys with no values are dropped. -/
def flattenHeaders (hdr : String → List String) : String → Option String :=
  fun k => (hdr k).head?

/-- What the webhook POST handler does with one inbound request: the
HTTP status written to the sender, and the body-and-headers handed to
the forwarding engine when it is invoked. -/
structure HandlerResult where
  status : Nat
  forwarded : Option (List Nat × (String → Option String))

/-- Embeds the webhook POST handler registered by registerEndpoint
(internal/server/server.go lines 149-220): when the body read fails
the handler responds 500 (http.StatusInternalServerError) and returns
before the forwarding goroutine is started; otherwise it hands the
body and the flattened headers to ForwardWebhook and responds 202
(http.StatusAccepted). -/
def handleWebhook (readBody : ReadResult) (hdr : String → List String) :
    HandlerResult :=
  match readBody with
  | ReadResult.err _ => { status := 500, forwarded := none }
  | ReadResult.ok body =>
    { status := 202, forwarded := some (body, flattenHeaders hdr) }

-- THEOREMS BELOW

/-- The loop bound of forwardToDestination is at least one. -/
theorem effectiveMaxAttempts_pos (retries : Int) :
    0 < effectiveMaxAttempts retries := by
  unfold effectiveMaxAttempts
  split
  · exact Nat.one_pos
  · omega

/-- In every run of the attempt loop, the number of delivery attempts
is one more than the number of sleeps: a sleep happens only between
two attempts, never after the final one. -/
theorem forwardLoop_waits_count (dest : DestinationConfig)
    (send : Nat → SendOutcome) :
    ∀ rem a, 0 < rem →
      (forwardLoop dest true send a rem).attempts =
        (forwardLoop dest true send a rem).waits.length + 1 := by
  intro rem
  induction rem with
  | zero => intro a h; exact absurd h (by simp)
  | succ n ih =>
    intro a _
    cases hs : send a with
    | err m =>
      by_cases hn : 0 < n
      · have := ih (a + 1) hn
        simp [forwardLoop, hs, hn, this]
      · simp [forwardLoop, hs, hn]
    | resp s =>
      by_cases h2 : 200 ≤ s ∧ s < 300
      · simp [forwardLoop, hs, h2]
      · by_cases hn : 0 < n
        · have := ih (a + 1) hn
          simp [forwardLoop, hs, h2, hn, this]
        · simp [forwardLoop, hs, h2, hn]

/-- Every sleep performed by the attempt loop has the substituted
retry delay as its duration. -/
theorem forwardLoop_waits_mem (dest : DestinationConfig)
    (send : Nat → SendOutcome) :
    ∀ rem a w, w ∈ (forwardLoop dest true send a rem).waits →
      w = retryWait dest.retryDelay := by
  intro rem
  induction rem with
  | zero => intro a w hw; simp [forwardLoop] at hw
  | succ n ih =>
    intro a w hw
    cases hs : send a with
    | err m =>
      by_cases hn : 0 < n
      · rw [show forwardLoop dest true send a (n + 1) =
            { attempts := (forwardLoop dest true send (a + 1) n).attempts + 1,
              waits := retryWait dest.retryDelay ::
                (forwardLoop dest true send (a + 1) n).waits,
              success := (forwardLoop dest true send (a + 1) n).success }
            from by simp [forwardLoop, hs, hn]] at hw
        rcases List.mem_cons.mp hw with h | h
        · exact h
        · exact ih (a + 1) w h
      · rw [show forwardLoop dest true send a (n + 1) =
            { attempts := 1, waits := [], success := false }
            from by simp [forwardLoop, hs, hn]] at hw
        simp at hw
    | resp s =>
      by_cases h2 : 200 ≤ s ∧ s < 300
      · rw [show forwardLoop dest true send a (n + 1) =
            { attempts := 1, waits := [], success := true }
            from by simp [forwardLoop, hs, h2]] at hw
        simp at hw
      · by_cases hn : 0 < n
        · rw [show forwardLoop dest true send a (n + 1) =
              { attempts := (forwardLoop dest true send (a + 1) n).attempts + 1,
                waits := retryWait dest.retryDelay ::
                  (forwardLoop dest true send (a + 1) n).waits,
                success := (forwardLoop dest true send (a + 1) n).success }
              from by simp [forwardLoop, hs, h2, hn]] at hw
          rcases List.mem_cons.mp hw with h | h
          · exact h
          · exact ih (a + 1) w h
        · rw [show forwardLoop dest true send a (n + 1) =
              { attempts := 1, waits := [], success := false }
              from by simp [forwardLoop, hs, h2, hn]] at hw
          simp at hw

/-- C2: in the delivery loop of proxy/proxy.go, an attempt that
receives a response is successful exactly when the status code lies in
the interval from 200 inclusive to 300 exclusive: on such a response
the loop stops at once with no further attempt and no sleep, while any
other response status (status code 0 included) and any transport error
is a failure after which, when attempts remain, the loop sleeps and
runs a further attempt. -/
theorem delivery_success_criterion (dest : DestinationConfig)
    (send : Nat → SendOutcome) (a rem : Nat) (s : Int) (msg : String) :
    (send a = SendOutcome.resp s →
      ((200 ≤ s ∧ s < 300) →
        forwardLoop dest true send a (rem + 1) =
          { attempts := 1, waits := [], success := true }) ∧
      (¬(200 ≤ s ∧ s < 300) → 0 < rem →
        forwardLoop dest true send a (rem + 1) =
          { attempts := (forwardLoop dest true send (a + 1) rem).attempts + 1,
            waits := retryWait dest.retryDelay ::
              (forwardLoop dest true send (a + 1) rem).waits,
            success := (forwardLoop dest true send (a + 1) rem).success })) ∧
    (send a = SendOutcome.err msg → 0 < rem →
      forwardLoop dest true send a (rem + 1) =
        { attempts := (forwardLoop dest true send (a + 1) rem).attempts + 1,
          waits := retryWait dest.retryDelay ::
            (forwardLoop dest true send (a + 1) rem).waits,
          success := (forwardLoop dest true send (a + 1) rem).success }) := by
  constructor
  · intro hs
    constructor
    · intro h2
      simp [forwardLoop, hs, h2]
    · intro h2 hn
      simp [forwardLoop, hs, h2, hn]
  · intro hs hn
    simp [forwardLoop, hs, hn]

/-- Witness for C2: a 204 response on the first attempt stops the loop
at once with a successful single attempt. -/
theorem delivery_success_criterion_witness :
    forwardLoop ⟨"https://example.com", "POST", [], oneSecond, 3, 0⟩ true
      (fun _ => SendOutcome.resp 204) 1 3 =
      { attempts := 1, waits := [], success := true } :=
  ((delivery_success_criterion
      ⟨"https://example.com", "POST", [], oneSecond, 3, 0⟩
      (fun _ => SendOutcome.resp 204) 1 2 204 "x").1 rfl).1 (by decide)

/-- C5: in every run of the delivery loop of proxy/proxy.go, each
sleep between a failed attempt and the next attempt lasts the
configured retry_delay with one second substituted when that value is
zero or negative, and the number of attempts exceeds the number of
sleeps by one, so no sleep follows the final attempt. -/
theorem retry_wait_between_attempts (dest : DestinationConfig)
    (send : Nat → SendOutcome) :
    (forwardToDestination dest true send).attempts =
      (forwardToDestination dest true send).waits.length + 1 ∧
    ∀ w ∈ (forwardToDestination dest true send).waits,
      w = (if dest.retryDelay ≤ 0 then oneSecond else dest.retryDelay) := by
  constructor
  · exact forwardLoop_waits_count dest send
      (effectiveMaxAttempts dest.retries) 1 (effectiveMaxAttempts_pos dest.retries)
  · intro w hw
    have := forwardLoop_waits_mem dest send
      (effectiveMaxAttempts dest.retries) 1 w hw
    simpa [retryWait] using this

/-- Witness for C5: with retries 2 and retry_delay 0, a destination
that always fails with a transport error gets two attempts separated
by a single one-second sleep. -/
theorem retry_wait_between_attempts_witness :
    (forwardToDestination ⟨"https://example.com", "POST", [], oneSecond, 2, 0⟩
        true (fun _ => SendOutcome.err "refused")).attempts =
      (forwardToDestination ⟨"https://example.com", "POST", [], oneSecond, 2, 0⟩
        true (fun _ => SendOutcome.err "refused")).waits.length + 1 ∧
    oneSecond = (if (0 : Int) ≤ 0 then oneSecond else (0 : Int)) :=
  ⟨(retry_wait_between_attempts
      ⟨"https://example.com", "POST", [], oneSecond, 2, 0⟩
      (fun _ => SendOutcome.err "refused")).1,
   (retry_wait_between_attempts
      ⟨"https://example.com", "POST", [], oneSecond, 2, 0⟩
      (fun _ => SendOutcome.err "refused")).2 oneSecond (by decide)⟩

/-- C9: when http.NewRequest fails, forwardToDestination of
proxy/proxy.go returns at once: no delivery attempt is sent, no sleep
happens and no retry is made, whatever the configured retries. -/
theorem request_creation_failure_aborts (dest : DestinationConfig)
    (send : Nat → SendOutcome) :
    forwardToDestination dest false send =
      { attempts := 0, waits := [], success := false } := by
  unfold forwardToDestination
  have h := effectiveMaxAttempts_pos dest.retries
  cases hm : effectiveMaxAttempts dest.retries with
  | zero => rw [hm] at h; exact absurd h (by simp)
  | succ n => simp [forwardLoop]

/-- The attempt loop always performs at least one iteration when
entered with at least one remaining iteration and a well-formed
request. -/
theorem forwardLoop_attempts_pos (dest : DestinationConfig)
    (send : Nat → SendOutcome) (a rem : Nat) (h : 0 < rem) :
    0 < (forwardLoop dest true send a rem).attempts := by
  cases rem with
  | zero => exact absurd h (by simp)
  | succ n =>
    simp only [forwardLoop]
    cases hs : send a with
    | err m =>
      by_cases hn : 0 < n
      · simp [hn]
      · simp [hn]
    | resp s =>
      by_cases h2 : 200 ≤ s ∧ s < 300
      · simp [h2]
      · by_cases hn : 0 < n
        · simp [h2, hn]
        · simp [h2, hn]

/-- The current delivery loop never performs more attempts than it has
iterations remaining. -/
theorem forwardLoopCur_attempts_le (dest : DestinationConfig)
    (env : Nat → AttemptEnv) :
    ∀ rem a, (forwardLoopCur dest env a rem).attempts ≤ rem := by
  intro rem
  induction rem with
  | zero => intro a; simp [forwardLoopCur]
  | succ n ih =>
    intro a
    cases he : (sendRequest (env a)).error with
    | some msg =>
      by_cases hn : 0 < n
      · have := ih (a + 1)
        simp only [forwardLoopCur, he, hn, if_pos]
        simp
        omega
      · simp [forwardLoopCur, he, hn]
    | none =>
      by_cases h2 : 200 ≤ (sendRequest (env a)).statusCode ∧
          (sendRequest (env a)).statusCode < 300
      · simp [forwardLoopCur, he, h2]
      · by_cases hn : 0 < n
        · have := ih (a + 1)
          simp only [forwardLoopCur, he, h2, hn, if_neg, if_pos]
          simp
          omega
        · simp [forwardLoopCur, he, h2, hn]

/-- When every attempt fails, the current delivery loop uses all of
its remaining iterations. -/
theorem forwardLoopCur_attempts_allfail (dest : DestinationConfig)
    (env : Nat → AttemptEnv)
    (hf : ∀ i, sendSuccess (sendRequest (env i)) = false) :
    ∀ rem a, 0 < rem → (forwardLoopCur dest env a rem).attempts = rem := by
  intro rem
  induction rem with
  | zero => intro a h; exact absurd h (by simp)
  | succ n ih =>
    intro a _
    cases he : (sendRequest (env a)).error with
    | some msg =>
      by_cases hn : 0 < n
      · have := ih (a + 1) hn
        simp [forwardLoopCur, he, hn, this]
      · have hn0 : n = 0 := by omega
        simp [forwardLoopCur, he, hn0]
    | none =>
      have h2 : ¬ (200 ≤ (sendRequest (env a)).statusCode ∧
          (sendRequest (env a)).statusCode < 300) := by
        have hs := hf a
        simp [sendSuccess, he] at hs
        intro hcon
        have h3 := hs hcon.1
        omega
      by_cases hn : 0 < n
      · have := ih (a + 1) hn
        simp [forwardLoopCur, he, h2, hn, this]
      · have hn0 : n = 0 := by omega
        simp [forwardLoopCur, he, h2, hn0]

/-- A single-iteration run of the current delivery loop performs
exactly one attempt, whatever its outcome. -/
theorem forwardLoopCur_one (dest : DestinationConfig)
    (env : Nat → AttemptEnv) (a : Nat) :
    (forwardLoopCur dest env a 1).attempts = 1 := by
  cases he : (sendRequest (env a)).error with
  | some msg => simp [forwardLoopCur, he]
  | none =>
    by_cases h2 : 200 ≤ (sendRequest (env a)).statusCode ∧
        (sendRequest (env a)).statusCode < 300
    · simp [forwardLoopCur, he, h2]
    · simp [forwardLoopCur, he, h2]

/-- C1: one invocation of the current per-destination delivery loop
(internal/proxy/proxy.go, third staged document of src/.golangci.yml)
with configured retries R performs at most maxAttemptsCur R attempts,
at most R + 1 attempts when R is non-negative, exactly R + 1 attempts
when R is non-negative and every attempt fails, and exactly 1 attempt
when R is at most 0. -/
theorem retry_policy_max_attempts (dest : DestinationConfig)
    (env : Nat → AttemptEnv) :
    (forwardToDestinationCur dest env).attempts ≤
      maxAttemptsCur dest.retries ∧
    (0 ≤ dest.retries →
      ((forwardToDestinationCur dest env).attempts : Int) ≤
        dest.retries + 1) ∧
    ((∀ i, sendSuccess (sendRequest (env i)) = false) →
      0 ≤ dest.retries →
      ((forwardToDestinationCur dest env).attempts : Int) =
        dest.retries + 1) ∧
    (dest.retries ≤ 0 → (forwardToDestinationCur dest env).attempts = 1) := by
  have hle : (forwardToDestinationCur dest env).attempts ≤
      maxAttemptsCur dest.retries :=
    forwardLoopCur_attempts_le dest env (maxAttemptsCur dest.retries) 1
  refine ⟨hle, ?_, ?_, ?_⟩
  · intro hr
    have hm : (maxAttemptsCur dest.retries : Int) ≤ dest.retries + 1 := by
      unfold maxAttemptsCur
      split <;> push_cast <;> omega
    have := Int.ofNat_le.mpr hle
    omega
  · intro hf hr
    have hpos : 0 < maxAttemptsCur dest.retries := by
      unfold maxAttemptsCur; split <;> omega
    have heq : (forwardToDestinationCur dest env).attempts =
        maxAttemptsCur dest.retries :=
      forwardLoopCur_attempts_allfail dest env hf
        (maxAttemptsCur dest.retries) 1 hpos
    rw [heq]
    unfold maxAttemptsCur
    split <;> push_cast <;> omega
  · intro hr
    have hm : maxAttemptsCur dest.retries = 1 := by
      unfold maxAttemptsCur; split <;> omega
    unfold forwardToDestinationCur
    rw [hm]
    exact forwardLoopCur_one dest env 1

/-- Witness for C1: a destination with retries 2 whose every attempt
receives a 200 response with a failing body read performs exactly 3
attempts — the 2xx status does not make a read-error outcome
successful, matching TestForwardToDestination and
TestSendRequestReadBodyError in internal/proxy/proxy_test.go. -/
theorem retry_policy_max_attempts_witness :
    (∀ i : Nat, sendSuccess (sendRequest
      ((fun _ : Nat => AttemptEnv.readBodyError 200 "mock read error") i)) =
        false) ∧
    ((forwardToDestinationCur
        ⟨"https://example.com", "POST", [], oneSecond, 2, oneSecond⟩
        (fun _ : Nat => AttemptEnv.readBodyError 200 "mock read error")).attempts :
      Int) = 2 + 1 :=
  ⟨fun _ => rfl,
   (retry_policy_max_attempts
      ⟨"https://example.com", "POST", [], oneSecond, 2, oneSecond⟩
      (fun _ : Nat => AttemptEnv.readBodyError 200 "mock read error")).2.2.1
        (fun _ => rfl) (by decide)⟩

/-- C3 counterexample: a delivery attempt that receives an HTTP 200
response whose body read fails keeps the status code but returns a nil
response body, so the body is not always fully read into the outcome
— the case TestSendRequestReadBodyError in
internal/proxy/proxy_test.go asserts. -/
theorem response_body_read_error_cex :
    (sendRequest (AttemptEnv.readBodyError 200 "mock read error")).statusCode
      = 200 ∧
    (sendRequest (AttemptEnv.readBodyError 200 "mock read error")).respBody
      = none ∧
    (sendRequest
      (AttemptEnv.readBodyError 200 "mock read error")).error.isSome = true :=
  ⟨rfl, rfl, rfl⟩

/-- C3 amended: for every delivery attempt that receives an HTTP
response, the body read is attempted regardless of status code; when
the read succeeds the full body is returned in the outcome's response
body with no error, non-2xx statuses included, and when the read fails
the outcome keeps the received status code but carries a nil response
body and a read error. -/
theorem response_body_fully_read (s : Int) (b : List Nat) (msg : String) :
    sendRequest (AttemptEnv.response s b) =
      { statusCode := s, respBody := some b, error := none } ∧
    (sendRequest (AttemptEnv.readBodyError s msg)).statusCode = s ∧
    (sendRequest (AttemptEnv.readBodyError s msg)).respBody = none ∧
    (sendRequest (AttemptEnv.readBodyError s msg)).error.isSome = true :=
  ⟨rfl, rfl, rfl, rfl⟩

/-- Header.Set makes the key map to the new value and leaves every
other key unchanged. -/
theorem hfind_headerSet (h : List (String × String)) (k v k' : String) :
    hfind (headerSet h k v) k' = if k = k' then some v else hfind h k' := by
  induction h with
  | nil => simp [headerSet, hfind]
  | cons p rest ih =>
    simp only [headerSet]
    by_cases hp : p.1 = k
    · rw [if_pos hp]
      by_cases hk : k = k'
      · simp [hfind, hk]
      · have hp' : ¬ p.1 = k' := by rw [hp]; exact hk
        simp [hfind, hk, hp']
    · rw [if_neg hp]
      by_cases hpk : p.1 = k'
      · have hk : ¬ k = k' := fun hcon => hp (hpk.trans hcon.symm)
        simp [hfind, hpk, hk]
      · simp only [hfind, hpk, if_neg, if_false]
        exact ih

/-- A key absent from an association list looks up to none. -/
theorem hfind_eq_none_of_not_mem (l : List (String × String)) (k : String)
    (h : k ∉ l.map Prod.fst) : hfind l k = none := by
  induction l with
  | nil => rfl
  | cons p rest ih =>
    simp only [List.map_cons, List.mem_cons] at h
    push_neg at h
    have hp : ¬ p.1 = k := fun hcon => h.1 hcon.symm
    simp [hfind, hp, ih h.2]

/-- Setting every pair of a unique-keyed map m into h makes the keys of
m look up to their value in m and every other key keep its value in
h. -/
theorem hfind_setAll (m : List (String × String)) (hm : uniqueKeys m)
    (h : List (String × String)) (k : String) :
    hfind (setAll h m) k =
      match hfind m k with
      | some v => some v
      | none => hfind h k := by
  induction m generalizing h with
  | nil => simp [setAll, hfind]
  | cons p rest ih =>
    have hm' : uniqueKeys rest := by
      simpa [uniqueKeys] using (List.nodup_cons.mp hm).2
    have hsa : setAll h (p :: rest) = setAll (headerSet h p.1 p.2) rest := by
      simp [setAll]
    rw [hsa, ih hm' (headerSet h p.1 p.2)]
    by_cases hk : p.1 = k
    · have hnot : k ∉ rest.map Prod.fst := by
        have := (List.nodup_cons.mp hm).1
        rw [hk] at this
        exact this
      rw [hfind_eq_none_of_not_mem rest k hnot]
      simp [hfind, hk, hfind_headerSet]
    · cases hr : hfind rest k with
      | some v => simp [hfind, hk, hr]
      | none => simp [hfind, hk, hr, hfind_headerSet]

/-- C6: the request built for every delivery attempt carries the
received payload bytes as its body unmodified, the destination's
method and URL, and a header set in which every key present in the
destination's configured headers takes the destination's value and
every other key takes the forwarded request-header value. -/
theorem request_headers_merge_and_body (dest : DestinationConfig)
    (body : List Nat) (reqHeaders : List (String × String))
    (hreq : uniqueKeys reqHeaders) (hdest : uniqueKeys dest.headers) :
    (buildRequest dest body reqHeaders).body = body ∧
    (buildRequest dest body reqHeaders).method = dest.method ∧
    (buildRequest dest body reqHeaders).url = dest.url ∧
    ∀ k, hfind (buildRequest dest body reqHeaders).headers k =
      match hfind dest.headers k with
      | some v => some v
      | none => hfind reqHeaders k := by
  refine ⟨rfl, rfl, rfl, ?_⟩
  intro k
  show hfind (setAll (setAll [] reqHeaders) dest.headers) k = _
  rw [hfind_setAll dest.headers hdest (setAll [] reqHeaders) k]
  rw [hfind_setAll reqHeaders hreq [] k]
  cases hd : hfind dest.headers k with
  | some v => rfl
  | none =>
    cases hr : hfind reqHeaders k with
    | some v => rfl
    | none => rfl

/-- Witness for C6: with forwarded headers A and B and a destination
header A, the built request carries the destination's A, the forwarded
B, and the payload unchanged. -/
theorem request_headers_merge_and_body_witness :
    uniqueKeys [("A", "req"), ("B", "b")] ∧
    hfind (buildRequest
      ⟨"https://example.com", "POST", [("A", "dest")], oneSecond, 0, 0⟩
      [1, 2] [("A", "req"), ("B", "b")]).headers "A" = some "dest" ∧
    hfind (buildRequest
      ⟨"https://example.com", "POST", [("A", "dest")], oneSecond, 0, 0⟩
      [1, 2] [("A", "req"), ("B", "b")]).headers "B" = some "b" ∧
    (buildRequest
      ⟨"https://example.com", "POST", [("A", "dest")], oneSecond, 0, 0⟩
      [1, 2] [("A", "req"), ("B", "b")]).body = [1, 2] :=
  ⟨by decide,
   ((request_headers_merge_and_body
      ⟨"https://example.com", "POST", [("A", "dest")], oneSecond, 0, 0⟩
      [1, 2] [("A", "req"), ("B", "b")] (by decide) (by decide)).2.2.2
        "A").trans (by decide),
   ((request_headers_merge_and_body
      ⟨"https://example.com", "POST", [("A", "dest")], oneSecond, 0, 0⟩
      [1, 2] [("A", "req"), ("B", "b")] (by decide) (by decide)).2.2.2
        "B").trans (by decide),
   (request_headers_merge_and_body
      ⟨"https://example.com", "POST", [("A", "dest")], oneSecond, 0, 0⟩
      [1, 2] [("A", "req"), ("B", "b")] (by decide) (by decide)).1⟩

/-- C4 counterexample: the setDefaultValues of config/config.go, run
by LoadConfig, turns a retry_delay of 0 into 1 second even for a
destination whose retries are 0, so the zero value is not left
unchanged when retries are at most 0. -/
theorem retry_delay_default_unconditional_cex :
    (loadConfig (fun _ => true) (fun _ => none) (fun _ => none)
        ⟨⟨8080, "h"⟩, ⟨"info", "json", "stdout", ""⟩,
          [⟨"/wh", [⟨"https://example.com", "POST", [], oneSecond, 0, 0⟩]⟩]⟩).toOption.map
      (fun c => c.endpoints.map fun ep =>
        ep.destinations.map fun d => (d.retries, d.retryDelay)) =
      some [[((0 : Int), oneSecond)]] := by decide

/-- C4 amended: the later config revision (src/unnamed/part_008)
normalizes a retry_delay of 0 to 1 second exactly when the
destination's retries are positive and leaves it at 0 otherwise, while
the setDefaultValues of config/config.go normalizes a retry_delay of 0
to 1 second unconditionally. -/
theorem retry_delay_default_conditional (d : DestinationConfig)
    (h : d.retryDelay = 0) :
    (setDefaultValuesDestLater d).retryDelay =
      (if 0 < d.retries then oneSecond else 0) ∧
    (setDefaultValuesDest d).retryDelay = oneSecond := by
  constructor
  · simp only [setDefaultValuesDestLater, h]
    by_cases hneg : d.retries < 0
    · have hp : ¬ (0 : Int) < d.retries := by omega
      simp [hneg, hp]
    · by_cases hp : (0 : Int) < d.retries
      · simp [hneg, hp]
      · simp [hneg, hp]
  · simp [setDefaultValuesDest, h]

/-- Witness for the amended C4: a destination with retries 2 and
retry_delay 0 is defaulted to 1 second by both revisions. -/
theorem retry_delay_default_conditional_witness :
    (⟨"https://example.com", "POST", [], oneSecond, 2, 0⟩ :
      DestinationConfig).retryDelay = 0 ∧
    (setDefaultValuesDestLater
      ⟨"https://example.com", "POST", [], oneSecond, 2, 0⟩).retryDelay =
      (if (0 : Int) < 2 then oneSecond else 0) ∧
    (setDefaultValuesDest
      ⟨"https://example.com", "POST", [], oneSecond, 2, 0⟩).retryDelay =
      oneSecond :=
  ⟨rfl,
   (retry_delay_default_conditional
     ⟨"https://example.com", "POST", [], oneSecond, 2, 0⟩ rfl).1,
   (retry_delay_default_conditional
     ⟨"https://example.com", "POST", [], oneSecond, 2, 0⟩ rfl).2⟩

/-- C7: when reading the inbound request body fails, the webhook
handler answers the sender with HTTP 500 and the forwarding engine is
never invoked for that request. -/
theorem body_read_failure_responds_500 (msg : String)
    (hdr : String → List String) :
    (handleWebhook (ReadResult.err msg) hdr).status = 500 ∧
    (handleWebhook (ReadResult.err msg) hdr).forwarded = none :=
  ⟨rfl, rfl⟩

/-- A destination accepted by validateDestinationConfig has a
non-empty validated URL, an allow-listed method, and non-negative
timeout, retries and retry_delay. -/
theorem validateDestinationConfig_ok (urlOk : String → Bool)
    (d : DestinationConfig)
    (h : validateDestinationConfig urlOk d = Except.ok ()) :
    ¬ d.url = "" ∧ urlOk d.url = true ∧
    validMethods.contains (toUpperAscii d.method) = true ∧
    ¬ d.timeout < 0 ∧ ¬ d.retries < 0 ∧ ¬ d.retryDelay < 0 := by
  unfold validateDestinationConfig at h
  split_ifs at h with h1 h2 h3 h4 h5 h6
  all_goals first
  | exact Except.noConfusion h
  | exact ⟨h1, h2, h3, h4, h5, h6⟩

/-- Every destination of a list accepted by the destination loop of
the validator is itself accepted. -/
theorem validateDestList_ok (urlOk : String → Bool) :
    ∀ ds, validateDestList urlOk ds = Except.ok () →
      ∀ d ∈ ds, validateDestinationConfig urlOk d = Except.ok () := by
  intro ds
  induction ds with
  | nil => intro _ d hd; simp at hd
  | cons d0 rest ih =>
    intro h d hd
    simp only [validateDestList] at h
    cases hv : validateDestinationConfig urlOk d0 with
    | ok u =>
      rw [hv] at h
      rcases List.mem_cons.mp hd with hne | hmem
      · cases u; exact hne ▸ hv
      · exact ih h d hmem
    | error e => rw [hv] at h; exact absurd h (by simp)

/-- An endpoint accepted by validateEndpointConfig has a path starting
with a slash and an accepted destination list. -/
theorem validateEndpointConfig_ok (urlOk : String → Bool)
    (ep : EndpointConfig)
    (h : validateEndpointConfig urlOk ep = Except.ok ()) :
    hasPrefixStr ep.path "/" = true ∧
    validateDestList urlOk ep.destinations = Except.ok () := by
  unfold validateEndpointConfig at h
  split_ifs at h with h1 h2 h3
  all_goals first
  | exact Except.noConfusion h
  | exact ⟨h2, h⟩

/-- Every endpoint of a list accepted by the endpoint loop of the
validator is itself accepted. -/
theorem validateEndpointList_ok (urlOk : String → Bool) :
    ∀ eps, validateEndpointList urlOk eps = Except.ok () →
      ∀ ep ∈ eps, validateEndpointConfig urlOk ep = Except.ok () := by
  intro eps
  induction eps with
  | nil => intro _ ep hep; simp at hep
  | cons e0 rest ih =>
    intro h ep hep
    simp only [validateEndpointList] at h
    cases hv : validateEndpointConfig urlOk e0 with
    | ok u =>
      rw [hv] at h
      rcases List.mem_cons.mp hep with hne | hmem
      · cases u; exact hne ▸ hv
      · exact ih h ep hmem
    | error e => rw [hv] at h; exact absurd h (by simp)

/-- A configuration accepted by validateConfig has an accepted
endpoint list. -/
theorem validateConfig_ok (urlOk : String → Bool) (c : Config)
    (h : validateConfig urlOk c = Except.ok ()) :
    validateEndpointList urlOk c.endpoints = Except.ok () := by
  unfold validateConfig at h
  cases h1 : validateServerConfig c.server with
  | error e => rw [h1] at h; exact absurd h (by simp)
  | ok u =>
    rw [h1] at h
    cases h2 : validateLoggingConfig c.logging with
    | error e => rw [h2] at h; exact absurd h (by simp)
    | ok u2 =>
      rw [h2] at h
      by_cases h3 : c.endpoints.isEmpty
      · rw [if_pos h3] at h; exact absurd h (by simp)
      · rw [if_neg h3] at h; exact h

/-- Every destination in the output of setDefaultValues is the image
of some destination under setDefaultValuesDest. -/
theorem setDefaultValues_dest_mem (p : Config) (ep : EndpointConfig)
    (d : DestinationConfig) (hep : ep ∈ (setDefaultValues p).endpoints)
    (hd : d ∈ ep.destinations) :
    ∃ d0, d = setDefaultValuesDest d0 := by
  simp only [setDefaultValues, List.mem_map] at hep
  obtain ⟨ep0, _, heq⟩ := hep
  rw [← heq] at hd
  simp only [List.mem_map] at hd
  obtain ⟨d0, _, hdeq⟩ := hd
  exact ⟨d0, hdeq.symm⟩

/-- Destination defaults clamp retries to a non-negative value. -/
theorem setDefaultValuesDest_retries_nonneg (d : DestinationConfig) :
    ¬ (setDefaultValuesDest d).retries < 0 := by
  simp only [setDefaultValuesDest]
  split_ifs <;> omega

/-- Destination defaults never leave the timeout at zero. -/
theorem setDefaultValuesDest_timeout_ne (d : DestinationConfig) :
    (setDefaultValuesDest d).timeout ≠ 0 := by
  simp only [setDefaultValuesDest]
  split_ifs with h
  · decide
  · exact h

/-- C10: every configuration that loadConfig returns successfully has,
for every destination of every endpoint, non-negative retries, a
positive timeout, a non-negative retry_delay, an allow-listed method
up to ASCII case, and a URL the request-URI check accepted, and every
endpoint path starts with a slash; moreover every destination reaching
validation, whatever validation then decides, already has non-negative
retries because setDefaultValues clamps them first, so the validation
branch rejecting negative retries is unreachable. -/
theorem load_config_invariants (urlOk : String → Bool)
    (env : String → Option String) (atoi : String → Option Int)
    (parsed c : Config)
    (h : loadConfig urlOk env atoi parsed = Except.ok c) :
    (∀ ep ∈ c.endpoints, hasPrefixStr ep.path "/" = true ∧
      ∀ d ∈ ep.destinations,
        0 ≤ d.retries ∧ 0 < d.timeout ∧ 0 ≤ d.retryDelay ∧
        validMethods.contains (toUpperAscii d.method) = true ∧
        urlOk d.url = true) ∧
    (∀ ep ∈ (applyEnvironmentOverrides env atoi
        (setDefaultValues parsed)).endpoints,
      ∀ d ∈ ep.destinations, ¬ d.retries < 0) := by
  unfold loadConfig at h
  cases hv : validateConfig urlOk
      (applyEnvironmentOverrides env atoi (setDefaultValues parsed)) with
  | error e => rw [hv] at h; exact absurd h (by simp)
  | ok u =>
    rw [hv] at h
    have hceq : applyEnvironmentOverrides env atoi (setDefaultValues parsed)
        = c := by simpa using h
    cases u
    have hlist := validateConfig_ok urlOk _ hv
    have hepdefault : ∀ ep ∈ c.endpoints, ∀ d ∈ ep.destinations,
        ∃ d0, d = setDefaultValuesDest d0 := by
      intro ep hep d hd
      rw [← hceq] at hep
      exact setDefaultValues_dest_mem parsed ep d hep hd
    constructor
    · intro ep hep
      have hepOk := validateEndpointList_ok urlOk c.endpoints
        (hceq ▸ hlist) ep hep
      obtain ⟨hpath, hdl⟩ := validateEndpointConfig_ok urlOk ep hepOk
      refine ⟨hpath, ?_⟩
      intro d hd
      have hdOk := validateDestList_ok urlOk ep.destinations hdl d hd
      obtain ⟨_, hurl, hmeth, htime, hret, hdel⟩ :=
        validateDestinationConfig_ok urlOk d hdOk
      obtain ⟨d0, hd0⟩ := hepdefault ep hep d hd
      have htne : d.timeout ≠ 0 := by
        rw [hd0]; exact setDefaultValuesDest_timeout_ne d0
      exact ⟨by omega, by omega, by omega, hmeth, hurl⟩
    · intro ep hep d hd
      obtain ⟨d0, hd0⟩ := setDefaultValues_dest_mem parsed ep d hep hd
      rw [hd0]
      exact setDefaultValuesDest_retries_nonneg d0

/-- Witness for C10: a parsed configuration with empty method, zero
timeout, retries -2 and zero retry_delay loads successfully and the
loaded destination satisfies every invariant. -/
theorem load_config_invariants_witness :
    hasPrefixStr "/wh" "/" = true ∧
    0 ≤ (⟨"https://example.com", "POST", [], 5 * oneSecond, 0, oneSecond⟩ :
      DestinationConfig).retries ∧
    0 < (⟨"https://example.com", "POST", [], 5 * oneSecond, 0, oneSecond⟩ :
      DestinationConfig).timeout ∧
    validMethods.contains (toUpperAscii
      (⟨"https://example.com", "POST", [], 5 * oneSecond, 0, oneSecond⟩ :
        DestinationConfig).method) = true := by
  have h : loadConfig (fun _ => true) (fun _ => none) (fun _ => none)
      ⟨⟨0, ""⟩, ⟨"", "", "", ""⟩,
        [⟨"/wh", [⟨"https://example.com", "", [], 0, -2, 0⟩]⟩]⟩ =
      Except.ok
        ⟨⟨8080, "0.0.0.0"⟩, ⟨"info", "json", "stdout", ""⟩,
          [⟨"/wh", [⟨"https://example.com", "POST", [], 5 * oneSecond, 0,
            oneSecond⟩]⟩]⟩ := rfl
  have hmain := (load_config_invariants _ _ _ _ _ h).1
    ⟨"/wh", [⟨"https://example.com", "POST", [], 5 * oneSecond, 0,
      oneSecond⟩]⟩ (by decide)
  have hdest := hmain.2
    ⟨"https://example.com", "POST", [], 5 * oneSecond, 0, oneSecond⟩
    (by decide)
  exact ⟨hmain.1, hdest.1, hdest.2.1, hdest.2.2.2.1⟩
